import Mathlib

set_option maxRecDepth 8000

/-! Verification development for the Resume-Customizer rendering core.

The Python sources `src/backend/pdf_generator/json_to_pdf.py` (with its
constants in `src/constants.py`) and the legacy root copy `src/main.py`
are embedded shallowly: Python strings become `List Char`, dynamic JSON
values become `PyVal`, operations that can raise become `Except PyErr`,
and scanning loops use an explicit step budget chosen large enough by
their wrappers so that every definition evaluates inside the kernel. -/

/-- Python strings are modelled as lists of characters. -/
abbrev Str := List Char

namespace ResumePdf

/-- The Python whitespace class, as used by `str.strip` and the regex class. -/
def isPyWs (c : Char) : Bool :=
  c = ' ' || c = '\t' || c = '\n' || c = '\r' || c = Char.ofNat 11 || c = Char.ofNat 12

/-- Drop a literal pattern from the front of a string, returning the rest on a match. -/
def dropLit : Str → Str → Option Str
  | [], s => some s
  | _ :: _, [] => none
  | a :: as, b :: bs => if a = b then dropLit as bs else none

/-- Python `s.startswith(p)`. -/
def startsWithLit (p s : Str) : Bool := (dropLit p s).isSome

/-- Python `s.endswith(t)`. -/
def strEndsWith (s t : Str) : Bool := startsWithLit t.reverse s.reverse

/-- Remove the maximal whitespace run from the front. -/
def dropWsL : Str → Str
  | [] => []
  | c :: t => if isPyWs c then dropWsL t else c :: t

/-- Python `s.strip()`. -/
def pyStrip (s : Str) : Str := (dropWsL (dropWsL s).reverse).reverse

/-- Python `s.replace(pat, repl)` with a step budget; the budget passed by each wrapper
    always suffices, and the sources never call replace with an empty pattern. -/
def replaceAllF : Nat → Str → Str → Str → Str
  | 0, _, _, s => s
  | f + 1, pat, repl, s =>
    match dropLit pat s with
    | some rest => repl ++ replaceAllF f pat repl rest
    | none =>
      match s with
      | [] => []
      | c :: t => c :: replaceAllF f pat repl t

/-- Python `s.replace(pat, repl)` (all non-overlapping occurrences, left to right). -/
def replaceAll (pat repl s : Str) : Str :=
  if pat.isEmpty then s else replaceAllF (s.length + 1) pat repl s

/-- Python `s.count(pat)` with a step budget. -/
def countOccF : Nat → Str → Str → Nat
  | 0, _, _ => 0
  | f + 1, pat, s =>
    match dropLit pat s with
    | some rest => 1 + countOccF f pat rest
    | none =>
      match s with
      | [] => 0
      | _ :: t => countOccF f pat t

/-- Python `s.count(pat)` (non-overlapping occurrences, left to right). -/
def countOcc (pat s : Str) : Nat := countOccF (s.length + 1) pat s

/-- Substring test, Python `pat in s`. -/
def containsLit (pat : Str) : Str → Bool
  | [] => pat.isEmpty
  | c :: t => startsWithLit pat (c :: t) || containsLit pat t

/-- Python `s.split(sep)` for a one-character separator (keeps empty fields). -/
def splitChar (sep : Char) : Str → List Str
  | [] => [[]]
  | c :: t =>
    if c = sep then [] :: splitChar sep t
    else
      match splitChar sep t with
      | [] => [[c]]
      | h :: r => (c :: h) :: r

/-- Python no-argument `s.split()` (whitespace runs, empties removed), fuelled. -/
def splitWsF : Nat → Str → List Str
  | 0, _ => []
  | f + 1, s =>
    let s1 := dropWsL s
    match s1 with
    | [] => []
    | c :: t =>
      ((c :: t).takeWhile (fun d => !isPyWs d)) ::
        splitWsF f ((c :: t).dropWhile (fun d => !isPyWs d))

/-- Python no-argument `s.split()`. -/
def splitWs (s : Str) : List Str := splitWsF (s.length + 1) s

/-- Python `sep.join(xs)`. -/
def joinStr (sep : Str) : List Str → Str
  | [] => []
  | x :: t => x ++ (t.map (fun y => sep ++ y)).foldr (· ++ ·) []

/-- Prefix of `s` before the first occurrence of `pat` (all of `s` when absent),
    Python `s.split(pat)[0]`. -/
def takeBeforeLit (pat : Str) : Str → Str
  | [] => []
  | c :: t => if startsWithLit pat (c :: t) then [] else c :: takeBeforeLit pat t

/-- Python `s.split(":", 1)` given that a colon is present: the pair of the
    text before the first colon and the text after it. -/
def splitOnceChar (sep : Char) : Str → Str × Str
  | [] => ([], [])
  | c :: t =>
    if c = sep then ([], t)
    else
      let p := splitOnceChar sep t
      (c :: p.1, p.2)

/-- Dynamic JSON-like values flowing through the renderer. -/
inductive PyVal where
  | vNone : PyVal
  | vBool : Bool → PyVal
  | vInt : Int → PyVal
  | vStr : Str → PyVal
  | vList : List PyVal → PyVal
  | vDict : List (Str × PyVal) → PyVal
deriving Inhabited

/-- Python truthiness. -/
def truthy : PyVal → Bool
  | .vNone => false
  | .vBool b => b
  | .vInt n => n != 0
  | .vStr s => !s.isEmpty
  | .vList xs => !xs.isEmpty
  | .vDict d => !d.isEmpty

/-- Exceptions the embedded code can raise. -/
inductive PyErr where
  | typeError : PyErr
  | attributeError : PyErr
deriving DecidableEq

/-- Decimal digits of a natural number, fuelled. -/
def natStrF : Nat → Nat → Str
  | 0, _ => []
  | f + 1, n =>
    if n < 10 then [Char.ofNat (48 + n)]
    else natStrF f (n / 10) ++ [Char.ofNat (48 + n % 10)]

/-- Decimal rendering of a natural number. -/
def natStr (n : Nat) : Str := natStrF (n + 1) n

/-- Python `str` of an integer. -/
def intStr (n : Int) : Str :=
  if n < 0 then '-' :: natStr n.natAbs else natStr n.toNat

/-- Backslash-escape the quote character `q` and backslashes, as Python repr does. -/
def pyQuoteEsc (q : Char) : Str → Str
  | [] => []
  | c :: t =>
    if c = '\\' then '\\' :: '\\' :: pyQuoteEsc q t
    else if c = q then '\\' :: c :: pyQuoteEsc q t
    else c :: pyQuoteEsc q t

/-- Python `repr` of a string: quoted, preferring single quotes. -/
def pyQuote (s : Str) : Str :=
  if s.contains (Char.ofNat 39) && !s.contains '"' then
    '"' :: (pyQuoteEsc '"' s ++ ['"'])
  else
    Char.ofNat 39 :: (pyQuoteEsc (Char.ofNat 39) s ++ [Char.ofNat 39])

/-- Python `repr` of a value. -/
def pyRepr : PyVal → Str
  | .vNone => "None".toList
  | .vBool true => "True".toList
  | .vBool false => "False".toList
  | .vInt n => intStr n
  | .vStr s => pyQuote s
  | .vList xs =>
    '[' :: (joinStr ", ".toList (xs.attach.map (fun x => pyRepr x.1)) ++ [']'])
  | .vDict kvs =>
    Char.ofNat 123 ::
      (joinStr ", ".toList
        (kvs.attach.map (fun kv => pyQuote kv.1.1 ++ ": ".toList ++ pyRepr kv.1.2)) ++
        [Char.ofNat 125])
decreasing_by
  · have h := List.sizeOf_lt_of_mem x.2
    simp only [PyVal.vList.sizeOf_spec]
    omega
  · have h := List.sizeOf_lt_of_mem kv.2
    have h2 : sizeOf kv.1.2 < sizeOf kv.1 := by
      obtain ⟨a, b⟩ := kv.1
      simp only [Prod.mk.sizeOf_spec]
      omega
    simp only [PyVal.vDict.sizeOf_spec]
    omega

/-- Python `str` of a value (display string). -/
def pyStr : PyVal → Str
  | .vStr s => s
  | v => pyRepr v

/-- First-binding association lookup with a default, the heart of `dict.get`. -/
def dictLookupD (d : List (Str × PyVal)) (k : Str) (default : PyVal) : PyVal :=
  match d with
  | [] => default
  | kv :: t => if kv.1 = k then kv.2 else dictLookupD t k default

/-- Key-presence test, Python `k in d`. -/
def dictHasKey (d : List (Str × PyVal)) (k : Str) : Bool :=
  d.any (fun kv => kv.1 = k)

/-- Python `v.get(k, default)`: attribute error unless `v` is a mapping. -/
def pyDictGet (v : PyVal) (k : Str) (default : PyVal) : Except PyErr PyVal :=
  match v with
  | .vDict d => .ok (dictLookupD d k default)
  | _ => .error .attributeError

/-- Python `a.endswith(b)`: attribute error on a non-string receiver,
    type error on a non-string argument. -/
def pyEndswith : PyVal → PyVal → Except PyErr Bool
  | .vStr i, .vStr l => .ok (strEndsWith i l)
  | .vStr _, _ => .error .typeError
  | _, _ => .error .attributeError

/-- Python `":" in v`: substring, element, or key test; type error on
    non-container values. -/
def pyInColon : PyVal → Except PyErr Bool
  | .vStr s => .ok (s.contains ':')
  | .vList xs => .ok (xs.any (fun x => match x with | .vStr s => s = [':'] | _ => false))
  | .vDict kvs => .ok (kvs.any (fun kv => kv.1 = [':']))
  | _ => .error .typeError

/-- The replacement table of `src/constants.py` `LATEX_SPECIAL_CHARS`,
    in its insertion (iteration) order. -/
def LATEX_SPECIAL_CHARS : List (Str × Str) :=
  [ ("&".toList, "\\&".toList),
    ("%".toList, "\\%".toList),
    ("$".toList, "\\$".toList),
    ("#".toList, "\\#".toList),
    ("_".toList, "\\_".toList),
    ("\x7b".toList, "\\\x7b".toList),
    ("\x7d".toList, "\\\x7d".toList),
    ("~".toList, "\\textasciitilde\x7b\x7d".toList),
    ("^".toList, "\\textasciicircum\x7b\x7d".toList) ]

/-- The string-level body of `escape_latex_special_chars`: backslash first,
    then each entry of `LATEX_SPECIAL_CHARS` in order. -/
def escString (s : Str) : Str :=
  LATEX_SPECIAL_CHARS.foldl (fun acc p => replaceAll p.1 p.2 acc)
    (replaceAll "\\".toList "\\textbackslash\x7b\x7d".toList s)

/-- Concatenation of a list of strings (a `+=` accumulation loop). -/
def concatAll (xs : List Str) : Str := xs.foldr (· ++ ·) []

/-- Four leading decimal digits, the regex `\d{4}`. -/
def take4Digits : Str → Option (Str × Str)
  | a :: b :: c :: d :: r =>
    if a.isDigit && b.isDigit && c.isDigit && d.isDigit then some ([a, b, c, d], r)
    else none
  | _ => none

/-- One alternative of the splitter `(University|Institute|College|Aug \d{4})`
    tried at the current position, in the order the pattern lists them. -/
def matchEduSepAt (s : Str) : Option (Str × Str) :=
  match dropLit "University".toList s with
  | some r => some ("University".toList, r)
  | none =>
    match dropLit "Institute".toList s with
    | some r => some ("Institute".toList, r)
    | none =>
      match dropLit "College".toList s with
      | some r => some ("College".toList, r)
      | none =>
        match dropLit "Aug ".toList s with
        | some r => (take4Digits r).map (fun p => ("Aug ".toList ++ p.1, p.2))
        | none => none

/-- Leftmost match of a matcher: the text before it, the match, and the rest. -/
def findSep (m : Str → Option (Str × Str)) : Str → Option (Str × Str × Str)
  | [] =>
    match m [] with
    | some p => some ([], p.1, p.2)
    | none => none
  | c :: t =>
    match m (c :: t) with
    | some p => some ([], p.1, p.2)
    | none => (findSep m t).map (fun q => (c :: q.1, q.2.1, q.2.2))

/-- Python `re.split` with one capturing group: pieces interleaved with the
    separators, fuelled (every separator is non-empty). -/
def reSplitCaptureF (m : Str → Option (Str × Str)) : Nat → Str → List Str
  | 0, s => [s]
  | f + 1, s =>
    match findSep m s with
    | none => [s]
    | some (before, sep, rest) => before :: sep :: reSplitCaptureF m f rest

/-- Python `re.split` with the education splitter pattern. -/
def eduSplitParts (s : Str) : List Str :=
  reSplitCaptureF matchEduSepAt (s.length + 1) s

/-- The institution-extraction loop over the split parts: a keyword part glues
    its neighbours, the right one truncated at `Master`/`Bachelor`. -/
def eduInstitutions (parts : List Str) : List Str :=
  parts.enum.foldl
    (fun acc ip =>
      if (ip.2 = "University".toList || ip.2 = "Institute".toList ||
          ip.2 = "College".toList) && 0 < ip.1 && ip.1 + 1 < parts.length then
        acc ++ [pyStrip (pyStrip ((parts.get? (ip.1 - 1)).getD []) ++ ip.2 ++
          pyStrip (takeBeforeLit "Bachelor".toList
            (takeBeforeLit "Master".toList ((parts.get? (ip.1 + 1)).getD []))))]
      else acc)
    []

/-- Python `re.findall` for matchers with non-empty matches, fuelled. -/
def findAllF (m : Str → Option (Str × Str)) : Nat → Str → List Str
  | 0, _ => []
  | f + 1, s =>
    match m s with
    | some p => p.1 :: findAllF m f p.2
    | none =>
      match s with
      | [] => []
      | _ :: t => findAllF m f t

/-- The location pattern `[A-Za-z]+,\s*[A-Z]{2}|[A-Za-z]+,\s*[A-Za-z]+`
    tried at the current position (first alternative preferred; each greedy
    piece is forced, so matching is deterministic). -/
def matchLocAt (s : Str) : Option (Str × Str) :=
  let a := s.takeWhile Char.isAlpha
  if a.isEmpty then none
  else
    match s.drop a.length with
    | ',' :: r2 =>
      let w := r2.takeWhile isPyWs
      let r3 := r2.drop w.length
      match r3 with
      | u1 :: u2 :: r4 =>
        if u1.isUpper && u2.isUpper then some (a ++ ',' :: (w ++ [u1, u2]), r4)
        else
          let b := r3.takeWhile Char.isAlpha
          if b.isEmpty then none
          else some (a ++ ',' :: (w ++ b), r3.drop b.length)
      | _ =>
        let b := r3.takeWhile Char.isAlpha
        if b.isEmpty then none
        else some (a ++ ',' :: (w ++ b), r3.drop b.length)
    | _ => none

/-- The degree-type keyword alternation `Master|Bachelor|PhD|Doctor`. -/
def degreeKw1At (s : Str) : Option (Str × Str) :=
  match dropLit "Master".toList s with
  | some r => some ("Master".toList, r)
  | none =>
    match dropLit "Bachelor".toList s with
    | some r => some ("Bachelor".toList, r)
    | none =>
      match dropLit "PhD".toList s with
      | some r => some ("PhD".toList, r)
      | none =>
        match dropLit "Doctor".toList s with
        | some r => some ("Doctor".toList, r)
        | none => none

/-- The degree pattern
    `(?:Master|Bachelor|PhD|Doctor)[^,\n]*(?:Science|Arts|Engineering|Computer)[^,\n]*`
    tried at the current position: after the keyword the two greedy `[^,\n]*`
    pieces together always extend the match to the end of the comma-and-
    newline-free run, which must contain a field keyword. -/
def matchDegAt (s : Str) : Option (Str × Str) :=
  match degreeKw1At s with
  | none => none
  | some (kw, rest) =>
    let run := rest.takeWhile (fun c => !(c = ',' || c = '\n'))
    if containsLit "Science".toList run || containsLit "Arts".toList run ||
        containsLit "Engineering".toList run || containsLit "Computer".toList run then
      some (kw ++ run, rest.drop run.length)
    else none

/-- The mis-decoded en dash appearing literally in the dates pattern of the
    source (bytes of U+2013 read back as three characters). -/
def mojidash : Str := [Char.ofNat 0xE2, Char.ofNat 0x20AC, Char.ofNat 0x201C]

/-- The dates pattern `Aug \d{4} â€“ May \d{4}` tried at the current position. -/
def matchDateAt (s : Str) : Option (Str × Str) :=
  match dropLit "Aug ".toList s with
  | none => none
  | some r1 =>
    match take4Digits r1 with
    | none => none
    | some (d1, r2) =>
      match dropLit (' ' :: (mojidash ++ " May ".toList)) r2 with
      | none => none
      | some r3 =>
        match take4Digits r3 with
        | none => none
        | some (d2, r4) =>
          some ("Aug ".toList ++ d1 ++ ' ' :: (mojidash ++ " May ".toList) ++ d2, r4)

/-- The four parallel extractions of the legacy education branch, zipped
    positionally and filtered to positions with an institution and a degree
    or dates. -/
def eduLegacyEntries (education : Str) : List (Str × Str × Str × Str) :=
  let fuel := education.length + 1
  let institutions := eduInstitutions (eduSplitParts education)
  let locations := findAllF matchLocAt fuel education
  let degrees := findAllF matchDegAt fuel education
  let dates := findAllF matchDateAt fuel education
  (List.range (max (max institutions.length locations.length)
      (max degrees.length dates.length))).filterMap
    (fun i =>
      let inst := (institutions.get? i).getD []
      let loc := (locations.get? i).getD []
      let deg := (degrees.get? i).getD []
      let dat := (dates.get? i).getD []
      if !inst.isEmpty && (!deg.isEmpty || !dat.isEmpty) then some (inst, loc, deg, dat)
      else none)

/-- `format_education_entry` of `json_to_pdf.py`; its None-to-empty guards are
    identities here because every caller passes the string result of escaping. -/
def format_education_entry (institution location degree dates : Str) : Str :=
  "\\resumeSubheading\n\x7b".toList ++ institution ++ "\x7d\x7b".toList ++ location ++
    "\x7d\n\x7b".toList ++ degree ++ "\x7d\x7b".toList ++ dates ++ "\x7d\n".toList

/-- The markup produced by the legacy (string) education branch, shared
    verbatim by `json_to_pdf.py` and the root `main.py`. -/
def eduLegacyBody (education : Str) : Str :=
  concatAll ((eduLegacyEntries education).map
    (fun e => format_education_entry (escString e.1) (escString e.2.1)
      (escString e.2.2.1) (escString e.2.2.2)))

/-- Opening literal of the education region. -/
def eduHeaderOpen : Str := "\\section\x7bEducation\x7d".toList

/-- The list-start marker shared by the heading-list regions. -/
def subHeadingListStart : Str := "\\resumeSubHeadingListStart".toList

/-- The list-end marker shared by the heading-list regions. -/
def subHeadingListEnd : Str := "\\resumeSubHeadingListEnd".toList

/-- The fixed text the education formatter starts with. -/
def eduHeader : Str := eduHeaderOpen ++ '\n' :: (subHeadingListStart ++ ['\n'])

/-- The fixed text the heading-list formatters end with. -/
def subHeadingFooter : Str := subHeadingListEnd ++ ['\n']

/-- The literal-backslash escape marker (the text `\textbackslash`). -/
def textbackslashLit : Str := "\\textbackslash".toList

/-- The reserved characters of the escaping layer together with the backslash. -/
def specialCharsList : List Char :=
  ['\\', '&', '%', '$', '#', '_', Char.ofNat 123, Char.ofNat 125, '~', '^']

/-- Absence of every reserved character and of the backslash. -/
def noSpecialChars (s : Str) : Bool := s.all (fun c => !specialCharsList.contains c)

namespace JsonToPdf

/-- `escape_latex_special_chars` of `json_to_pdf.py`: the empty string for
    `None`, the display string for other non-strings, escaped text otherwise. -/
def escape_latex_special_chars : PyVal → Str
  | .vNone => []
  | .vStr s => escString s
  | v => pyStr v

/-- Search part of `is_email`: after an `@`, is there a `.` before the next
    newline (the regex `@.*\.` with a dot that does not cross lines)? -/
def emailDotScan : Str → Bool
  | [] => false
  | c :: t => if c = '.' then true else if c = '\n' then false else emailDotScan t

/-- Existence of a match of the pattern `@.*\.` anywhere in the string. -/
def emailSearch : Str → Bool
  | [] => false
  | c :: t => (c = '@' && emailDotScan t) || emailSearch t

/-- `is_email` of `json_to_pdf.py`. -/
def is_email (s : Str) : Bool := s.contains '@' && emailSearch s

/-- Python `s.lower()` (the inputs of interest are ASCII). -/
def pyLower (s : Str) : Str := s.map Char.toLower

/-- `is_linkedin` of `json_to_pdf.py`. -/
def is_linkedin (s : Str) : Bool := containsLit "linkedin.com".toList (pyLower s)

/-- `is_github` of `json_to_pdf.py`. -/
def is_github (s : Str) : Bool := containsLit "github.com".toList (pyLower s)

/-- `is_phone` of `json_to_pdf.py` (`PHONE_MIN_DIGITS = 7`). -/
def is_phone (s : Str) : Bool :=
  s.any Char.isDigit && decide (7 ≤ (s.filter Char.isDigit).length)

/-- `ensure_url_protocol` of `json_to_pdf.py`; its `None` guard returns the
    empty string, and every call site passes a string. -/
def ensure_url_protocol (url : Str) : Str :=
  if startsWithLit "http://".toList url || startsWithLit "https://".toList url then url
  else "https://".toList ++ url

/-- Fixed markup fragments of the personal-information block. -/
def beginCenterLit : Str := "\\begin\x7bcenter\x7d".toList

/-- The bold-name opener inside the personal block. -/
def textbfHugeLit : Str := "\\textbf\x7b\\Huge \\scshape".toList

/-- The closing marker of the personal block. -/
def endCenterLit : Str := "\\end\x7bcenter\x7d".toList

/-- Everything of the personal block preceding the name. -/
def personalPfx : Str := beginCenterLit ++ '\n' :: (textbfHugeLit ++ [' '])

/-- The fixed markup between the name and the contact line. -/
def personalMid : Str := "\x7d \\\\ \\vspace\x7b1pt\x7d\n\\small ".toList

/-- The personal block template shared by all three return paths of
    `format_personal_info`. -/
def personalBlock (name contact : Str) : Str :=
  personalPfx ++ name ++ personalMid ++ contact ++ '\n' :: endCenterLit

/-- The fixed placeholder fragment returned for unrecognized input. -/
def placeholderPersonal : Str :=
  personalBlock "Your Name".toList "phone $|$ email $|$ linkedin $|$ github".toList

/-- The body of the contact-segment loop of the legacy branch of
    `format_personal_info` (lines 384-400): strip, escape, then classify with
    the precedence email, LinkedIn, GitHub, phone, plain text. -/
def format_contact_part (part0 : Str) : Str :=
  let part := pyStrip part0
  let escaped_part := escString part
  if is_email part then
    "\\href\x7bmailto:".toList ++ escaped_part ++ "\x7d\x7b\\underline\x7b".toList ++
      escaped_part ++ "\x7d\x7d".toList
  else if is_linkedin part then
    "\\href\x7b".toList ++ ensure_url_protocol part ++ "\x7d\x7b\\underline\x7b".toList ++
      escaped_part ++ "\x7d\x7d".toList
  else if is_github part then
    "\\href\x7b".toList ++ ensure_url_protocol part ++ "\x7d\x7b\\underline\x7b".toList ++
      escaped_part ++ "\x7d\x7d".toList
  else if is_phone part then
    "\\href\x7btel:".toList ++ part.filter Char.isDigit ++ "\x7d\x7b".toList ++
      escaped_part ++ "\x7d".toList
  else escaped_part

/-- `format_personal_info` of `json_to_pdf.py`.  Every operation in it is
    guarded in the source, so the function is total. -/
def format_personal_info (personal_info : PyVal) : Str :=
  match personal_info with
  | .vDict d =>
    let name := escape_latex_special_chars
      (dictLookupD d "name".toList (.vStr "Your Name".toList))
    let contact_items :=
      (if dictHasKey d "phone".toList then
        let phone := escape_latex_special_chars (dictLookupD d "phone".toList .vNone)
        ["\\href\x7btel:".toList ++ replaceAll "-".toList [] phone ++
          "\x7d\x7b".toList ++ phone ++ "\x7d".toList]
      else []) ++
      (if dictHasKey d "email".toList then
        let email := escape_latex_special_chars (dictLookupD d "email".toList .vNone)
        ["\\href\x7bmailto:".toList ++ email ++ "\x7d\x7b\\underline\x7b".toList ++
          email ++ "\x7d\x7d".toList]
      else []) ++
      (if dictHasKey d "linkedin".toList then
        let linkedin := escape_latex_special_chars (dictLookupD d "linkedin".toList .vNone)
        ["\\href\x7b".toList ++ ensure_url_protocol linkedin ++
          "\x7d\x7b\\underline\x7b".toList ++ linkedin ++ "\x7d\x7d".toList]
      else []) ++
      (if dictHasKey d "github".toList then
        match dictLookupD d "github".toList .vNone with
        | .vNone => []
        | g =>
          let github := escape_latex_special_chars g
          ["\\href\x7b".toList ++ ensure_url_protocol github ++
            "\x7d\x7b\\underline\x7b".toList ++ github ++ "\x7d\x7d".toList]
      else [])
    personalBlock name (joinStr " $|$ ".toList contact_items)
  | .vStr s =>
    let parts := splitChar '|' (pyStrip s)
    if parts.length ≥ 1 then
      let name_parts := splitWs (pyStrip (parts.headD []))
      let name :=
        if name_parts.length ≥ 2 then escString (joinStr [' '] (name_parts.take 2))
        else escString (pyStrip (parts.headD []))
      personalBlock name (joinStr " $|$ ".toList ((parts.drop 1).map format_contact_part))
    else placeholderPersonal
  | _ => placeholderPersonal

/-- Lines 432-440 of `json_to_pdf.py`: when institution and location are both
    truthy and the institution ends with the location, delete every occurrence
    of the location and strip; then escape.  `endswith` raises on non-string
    operands exactly as in Python. -/
def dedup_then_escape (institution location : PyVal) : Except PyErr Str :=
  if truthy institution && truthy location then
    match institution, location with
    | .vStr i, .vStr l =>
      .ok (if strEndsWith i l then escString (pyStrip (replaceAll l [] i))
           else escString i)
    | .vStr _, _ => .error .typeError
    | _, _ => .error .attributeError
  else .ok (escape_latex_special_chars institution)

/-- One escaped `\resumeItem` line. -/
def resumeItem (v : PyVal) : Str :=
  "\\resumeItem\x7b".toList ++ escape_latex_special_chars v ++ "\x7d\n".toList

/-- The optional details item-list of an education entry. -/
def detailsBlock (d : List (Str × PyVal)) : Str :=
  if dictHasKey d "details".toList then
    match dictLookupD d "details".toList .vNone with
    | .vList ds =>
      if ds.isEmpty then []
      else
        "\\resumeItemListStart\n".toList ++ concatAll (ds.map resumeItem) ++
          "\\resumeItemListEnd\n".toList
    | _ => []
  else []

/-- The markup contributed by one structured education entry (non-mappings are
    skipped by the `isinstance` check). -/
def eduEntryBody (entry : PyVal) : Except PyErr Str :=
  match entry with
  | .vDict d =>
    let inst0 := dictLookupD d "institution".toList (.vStr [])
    let loc0 := dictLookupD d "location".toList (.vStr [])
    (dedup_then_escape inst0 loc0).map (fun institution =>
      format_education_entry institution (escape_latex_special_chars loc0)
        (escape_latex_special_chars (dictLookupD d "degree".toList (.vStr [])))
        (escape_latex_special_chars (dictLookupD d "dates".toList (.vStr []))) ++
      detailsBlock d)
  | _ => .ok []

/-- Everything `format_education` accumulates between its fixed header and
    footer, branch by branch as in the source. -/
def format_education_body : PyVal → Except PyErr Str
  | .vList entries =>
    if entries.isEmpty then .ok []
    else (entries.mapM eduEntryBody).map concatAll
  | .vStr s => if (pyStrip s).isEmpty then .ok [] else .ok (eduLegacyBody s)
  | _ => .ok []

/-- `format_education` of `json_to_pdf.py`. -/
def format_education (education : PyVal) : Except PyErr Str :=
  (format_education_body education).map (fun body => eduHeader ++ body ++ subHeadingFooter)

/-- Opening literal of the experience region. -/
def expHeaderOpen : Str := "\\section\x7bExperience\x7d".toList

/-- The fixed text the experience formatter starts with. -/
def expHeader : Str := expHeaderOpen ++ '\n' :: (subHeadingListStart ++ ['\n'])

/-- The markup of one experience entry; `job.get` raises on non-mappings. -/
def expJobBlock (job : PyVal) : Except PyErr Str := do
  let company := escape_latex_special_chars (← pyDictGet job "company".toList (.vStr []))
  let title := escape_latex_special_chars (← pyDictGet job "title".toList (.vStr []))
  let location := escape_latex_special_chars (← pyDictGet job "location".toList (.vStr []))
  let dates := escape_latex_special_chars (← pyDictGet job "dates".toList (.vStr []))
  let details ← pyDictGet job "details".toList (.vList [])
  let items :=
    match details with
    | .vList ds => if ds.isEmpty then [] else concatAll (ds.map resumeItem)
    | _ => []
  .ok ("\\resumeSubheading\n\x7b".toList ++ title ++ "\x7d\x7b".toList ++ dates ++
    "\x7d\n\x7b".toList ++ company ++ "\x7d\x7b".toList ++ location ++
    "\x7d\n\\resumeItemListStart\n".toList ++ items ++ "\\resumeItemListEnd\n".toList)

/-- `format_experience` of `json_to_pdf.py`; an empty or unrecognized value
    yields the structurally valid empty section. -/
def format_experience : PyVal → Except PyErr Str
  | .vList jobs =>
    if jobs.isEmpty then .ok (expHeader ++ subHeadingFooter)
    else (jobs.mapM expJobBlock).map (fun bs => expHeader ++ concatAll bs ++ subHeadingFooter)
  | _ => .ok (expHeader ++ subHeadingFooter)

/-- Opening literal of the skills region. -/
def skillsHeaderOpen : Str := "\\section\x7bTechnical Skills\x7d".toList

/-- The itemize opener the skills pattern looks for. -/
def skillsHeaderMid : Str := "\\begin\x7bitemize\x7d".toList

/-- The fixed text the skills formatter starts with. -/
def skillsHeader : Str :=
  skillsHeaderOpen ++ '\n' :: (skillsHeaderMid ++
    ("[leftmargin=0pt, itemindent=0pt, labelwidth=0pt, labelsep=0pt, align=left, label=\x7b\x7d]%\n\\small\x7b\\item\x7b\n".toList))

/-- The closing literal of the skills pattern. -/
def endItemizeLit : Str := "\\end\x7bitemize\x7d".toList

/-- The fixed text the skills formatter ends with. -/
def skillsFooter : Str := "\n\x7d\x7d\n".toList ++ endItemizeLit ++ ['\n']

/-- A bold category label followed by its rendered content. -/
def textbfCat (cat rest : Str) : Str :=
  "\\textbf\x7b".toList ++ cat ++ "\x7d: ".toList ++ rest

/-- One bold sub-line per subcategory whose value is a non-empty list. -/
def subcategoryParts (tech : List (Str × PyVal)) : List Str :=
  tech.filterMap (fun kv =>
    match kv.2 with
    | .vList ss =>
      if ss.isEmpty then none
      else some (textbfCat (escString kv.1)
        (joinStr ", ".toList (ss.map escape_latex_special_chars)))
    | _ => none)

/-- The structured (mapping) branch of `format_skills`: special-cased
    "Technical Skills" first, then the remaining categories in order. -/
def skillsDictBody (skills : List (Str × PyVal)) : Str :=
  let ts := "Technical Skills".toList
  let fromTS :=
    if dictHasKey skills ts then
      match dictLookupD skills ts .vNone with
      | .vDict tech => subcategoryParts tech
      | .vList ss =>
        if ss.isEmpty then []
        else [textbfCat ts (joinStr ", ".toList (ss.map escape_latex_special_chars))]
      | _ => []
    else []
  let skills_copy :=
    if dictHasKey skills ts then skills.filter (fun kv => kv.1 ≠ ts) else skills
  let fromRest := skills_copy.filterMap (fun kv =>
    if kv.1 = ts then none
    else
      let category_text := escString kv.1
      match kv.2 with
      | .vDict sub =>
        let parts := subcategoryParts sub
        if parts.isEmpty then none
        else some (textbfCat category_text (joinStr " \\\\\n".toList parts))
      | .vList ss =>
        if ss.isEmpty then some (textbfCat category_text (escString (pyStr kv.2)))
        else some (textbfCat category_text
          (joinStr ", ".toList (ss.map escape_latex_special_chars)))
      | other => some (textbfCat category_text (escString (pyStr other))))
  joinStr " \\\\\n".toList (fromTS ++ fromRest)

/-- One legacy skill string: bold the part before the first colon; the
    membership test raises on non-container values exactly as the Python `in` operator. -/
def skillLegacyItem (skill : PyVal) : Except PyErr Str := do
  let hasColon ← pyInColon skill
  if hasColon then
    match skill with
    | .vStr s =>
      let p := splitOnceChar ':' s
      .ok (textbfCat (escString (pyStrip p.1)) (escString (pyStrip p.2)))
    | _ => .error .attributeError
  else .ok (escape_latex_special_chars skill)

/-- `format_skills` of `json_to_pdf.py`. -/
def format_skills : PyVal → Except PyErr Str
  | .vDict d => .ok (skillsHeader ++ skillsDictBody d ++ skillsFooter)
  | .vList ss =>
    if ss.isEmpty then .ok (skillsHeader ++ skillsFooter)
    else (ss.mapM skillLegacyItem).map
      (fun items => skillsHeader ++ joinStr " \\\\\n".toList items ++ skillsFooter)
  | _ => .ok (skillsHeader ++ skillsFooter)

/-- Opening literal of the projects region. -/
def projHeaderOpen : Str := "\\section\x7bProjects\x7d".toList

/-- The fixed text the projects formatter starts with. -/
def projHeader : Str := projHeaderOpen ++ '\n' :: (subHeadingListStart ++ ['\n'])

/-- Lines 682-690 of `json_to_pdf.py`: resolve `technologies_used` falling back
    to `technologies`, join a list with commas, escape a scalar. -/
def project_technologies_formatted (project : PyVal) : Except PyErr Str := do
  let t0 ← pyDictGet project "technologies".toList (.vStr [])
  let technologies ← pyDictGet project "technologies_used".toList t0
  .ok (match technologies with
    | .vNone => []
    | .vList techs => joinStr ", ".toList (techs.map escape_latex_special_chars)
    | t => escape_latex_special_chars t)

/-- Lines 694-711 of `json_to_pdf.py`: a long technology list (over 40 escaped
    characters) becomes a separate first bullet under the heading, a short
    non-empty one is inlined next to the heading, an empty one is omitted. -/
def project_heading_part (project_name technologies_formatted : Str) : Str :=
  if !technologies_formatted.isEmpty && technologies_formatted.length > 40 then
    "\\resumeProjectHeading\n\x7b\\textbf\x7b".toList ++ project_name ++
      "\x7d\x7d\x7b\x7d\n\\resumeItemListStart\n\\resumeItem\x7b\\emph\x7bTechnologies:\x7d ".toList ++
      technologies_formatted ++ "\x7d\n".toList
  else if !technologies_formatted.isEmpty then
    "\\resumeProjectHeading\n\x7b\\textbf\x7b".toList ++ project_name ++
      "\x7d $|$ \\emph\x7b".toList ++ technologies_formatted ++
      "\x7d\x7d\x7b\x7d\n\\resumeItemListStart\n".toList
  else
    "\\resumeProjectHeading\n\x7b\\textbf\x7b".toList ++ project_name ++
      "\x7d\x7d\x7b\x7d\n\\resumeItemListStart\n".toList

/-- The markup of one project entry. -/
def projBlock (project : PyVal) : Except PyErr Str := do
  let t ← pyDictGet project "title".toList (.vStr [])
  let n ← pyDictGet project "name".toList t
  let project_name := escape_latex_special_chars n
  let technologies_formatted ← project_technologies_formatted project
  let d0 ← pyDictGet project "details".toList (.vList [])
  let description ← pyDictGet project "description".toList (.vStr [])
  let details :=
    if truthy description && !truthy d0 then
      match description with
      | .vStr s => .vList [.vStr s]
      | .vList ds => .vList ds
      | _ => d0
    else d0
  let items :=
    match details with
    | .vList ds => if ds.isEmpty then [] else concatAll (ds.map resumeItem)
    | _ => []
  .ok (project_heading_part project_name technologies_formatted ++ items ++
    "\\resumeItemListEnd\n".toList)

/-- `format_projects` of `json_to_pdf.py`. -/
def format_projects : PyVal → Except PyErr Str
  | .vList ps =>
    if ps.isEmpty then .ok (projHeader ++ subHeadingFooter)
    else (ps.mapM projBlock).map (fun bs => projHeader ++ concatAll bs ++ subHeadingFooter)
  | _ => .ok (projHeader ++ subHeadingFooter)

/-- The observable state `compile_latex` interacts with: whether the input
    file exists, whether the `latexmk` binary is found, the exit code of the
    child process, and whether the expected artifact (base filename with a
    `.pdf` extension inside the output directory) exists once the process has
    returned. -/
structure CompileEnv where
  input_file_exists : Bool
  latexmk_found : Bool
  returncode : Int
  pdf_exists_after : Bool

/-- The return value of `compile_latex` (lines 146-285 of `json_to_pdf.py`).
    The variable `success := returncode == 0 or continue_on_error` in the
    source only selects whether an error summary is printed; the value
    returned is decided by the validation guards and the artifact check.
    Cleanup and PDF opening never change the returned value. -/
def compile_latex (env : CompileEnv) (continue_on_error : Bool) : Bool :=
  if !env.input_file_exists then false
  else if !env.latexmk_found then false
  else
    let _success := env.returncode == 0 || continue_on_error
    if !env.pdf_exists_after then false
    else true

/-- Non-greedy scan of `.*?close`: the rest of the string after the first
    occurrence of the closing literal. -/
def scanToLit (close : Str) : Str → Option Str
  | [] => dropLit close []
  | c :: t =>
    match dropLit close (c :: t) with
    | some r => some r
    | none => scanToLit close t

/-- Non-greedy scan of `.+?close`: at least one consumed character. -/
def scanToLit1 (close : Str) : Str → Option Str
  | [] => none
  | _ :: t => scanToLit close t

/-- A match attempt of `open\s*mid.*?close` at the current position, with the
    `DOTALL` flag of the source; returns the rest after the match. -/
def sectionMatchAt (openL midL closeL : Str) (s : Str) : Option Str :=
  (dropLit openL s).bind (fun r1 =>
    (dropLit midL (dropWsL r1)).bind (fun r2 => scanToLit closeL r2))

/-- Leftmost match of a position matcher: the text before the match and the
    rest after it, as `re.sub` consumes them. -/
def findFromG (m : Str → Option Str) : Str → Option (Str × Str)
  | [] => (m []).map (fun r => (([] : Str), r))
  | c :: t =>
    match m (c :: t) with
    | some r => some ([], r)
    | none => (findFromG m t).map (fun p => (c :: p.1, p.2))

/-- Python `re.sub` with a constant replacement, fuelled (every pattern of the
    source matches at least one character). -/
def reSubAllF (m : Str → Option Str) (repl : Str) : Nat → Str → Str
  | 0, s => s
  | f + 1, s =>
    match findFromG m s with
    | none => s
    | some (before, rest) => before ++ repl ++ reSubAllF m repl f rest

/-- Python `re.sub(pattern, lambda m: repl, s, flags=re.DOTALL)`. -/
def reSubAll (m : Str → Option Str) (repl s : Str) : Str :=
  reSubAllF m repl (s.length + 1) s

/-- The personal-information pattern of `SECTION_PATTERNS`:
    the begin-center block through the matching end-center marker. -/
def matchPersonalAt (s : Str) : Option Str :=
  (dropLit beginCenterLit s).bind (fun r1 =>
    (dropLit textbfHugeLit (dropWsL r1)).bind (fun r2 => scanToLit1 endCenterLit r2))

/-- The education pattern of `SECTION_PATTERNS`. -/
def matchEducationAt (s : Str) : Option Str :=
  sectionMatchAt eduHeaderOpen subHeadingListStart subHeadingListEnd s

/-- The experience pattern of `SECTION_PATTERNS`. -/
def matchExperienceAt (s : Str) : Option Str :=
  sectionMatchAt expHeaderOpen subHeadingListStart subHeadingListEnd s

/-- The projects pattern of `SECTION_PATTERNS`. -/
def matchProjectsAt (s : Str) : Option Str :=
  sectionMatchAt projHeaderOpen subHeadingListStart subHeadingListEnd s

/-- The skills pattern of `SECTION_PATTERNS`. -/
def matchSkillsAt (s : Str) : Option Str :=
  sectionMatchAt skillsHeaderOpen skillsHeaderMid endItemizeLit s

/-- The zero-width lookahead `(?=\\section|\s*\\end{document})` of the
    cleanup pattern. -/
def lookaheadOk (s : Str) : Bool :=
  (dropLit "\\section".toList s).isSome ||
    (dropLit "\\end\x7bdocument\x7d".toList (dropWsL s)).isSome

/-- Non-greedy scan of `.*?` up to the position where the lookahead holds. -/
def scanToLookahead : Str → Option Str
  | [] => if lookaheadOk [] then some [] else none
  | c :: t => if lookaheadOk (c :: t) then some (c :: t) else scanToLookahead t

/-- The cleanup pattern
    `%---+\s*\\resumeSubheading.*?(?=\\section|\s*\\end{document})` tried at
    the current position. -/
def matchCleanupAt : Str → Option Str
  | '%' :: r =>
    let hy := r.takeWhile (fun c => c = '-')
    if hy.length ≥ 3 then
      match dropLit "\\resumeSubheading".toList (dropWsL (r.drop hy.length)) with
      | none => none
      | some r2 => scanToLookahead r2
    else none
  | _ => none

/-- `populate_template` of `json_to_pdf.py`: format the five sections (with
    the defaults `resume_data.get` supplies), substitute each pattern of
    `SECTION_PATTERNS` in order, then run the cleanup substitution. -/
def populate_template (template : Str) (resume_data : PyVal) : Except PyErr Str := do
  let personal := format_personal_info (← pyDictGet resume_data "personal_info".toList (.vStr []))
  let education ← format_education (← pyDictGet resume_data "education".toList (.vStr []))
  let experience ← format_experience (← pyDictGet resume_data "experience".toList (.vList []))
  let projects ← format_projects (← pyDictGet resume_data "projects".toList (.vList []))
  let skills ← format_skills (← pyDictGet resume_data "skills".toList (.vList []))
  let t1 := reSubAll matchPersonalAt personal template
  let t2 := reSubAll matchEducationAt education t1
  let t3 := reSubAll matchExperienceAt experience t2
  let t4 := reSubAll matchProjectsAt projects t3
  let t5 := reSubAll matchSkillsAt skills t4
  .ok (reSubAll matchCleanupAt [] t5)

/-- A region-shape check used to state that formatter output is again
    locatable: it starts with the fixed opening markup of the region, ends with its
    fixed closing markup, and the region pattern finds a match inside it. -/
def regionOkPersonal (r : Str) : Bool :=
  startsWithLit personalPfx r && strEndsWith r endCenterLit &&
    (findFromG matchPersonalAt r).isSome

/-- Region-shape check for the education pattern. -/
def regionOkEducation (r : Str) : Bool :=
  startsWithLit eduHeader r && strEndsWith r subHeadingFooter &&
    (findFromG matchEducationAt r).isSome

/-- Region-shape check for the experience pattern. -/
def regionOkExperience (r : Str) : Bool :=
  startsWithLit expHeader r && strEndsWith r subHeadingFooter &&
    (findFromG matchExperienceAt r).isSome

/-- Region-shape check for the projects pattern. -/
def regionOkProjects (r : Str) : Bool :=
  startsWithLit projHeader r && strEndsWith r subHeadingFooter &&
    (findFromG matchProjectsAt r).isSome

/-- Region-shape check for the skills pattern. -/
def regionOkSkills (r : Str) : Bool :=
  startsWithLit skillsHeader r && strEndsWith r skillsFooter &&
    (findFromG matchSkillsAt r).isSome

/-- A Boolean predicate holding of every successful result (vacuously true of
    an exception). -/
def okSatisfies : Except PyErr Str → (Str → Bool) → Bool
  | .error _, _ => true
  | .ok r, p => p r

end JsonToPdf

namespace MainPy

/-- `escape_latex_special_chars` of the root `main.py`: it returns non-string
    values unchanged (no `None` guard and no display-string coercion), and
    applies the same replacement chain to strings. -/
def escape_latex_special_chars : PyVal → PyVal
  | .vStr s => .vStr (escString s)
  | v => v

/-- One `\resumeItem` line of `main.py`, interpolating through `str` because
    the legacy escape passes non-strings through. -/
def resumeItem (v : PyVal) : Str :=
  "\\resumeItem\x7b".toList ++ pyStr (escape_latex_special_chars v) ++ "\x7d\n".toList

/-- The optional details item-list of a `main.py` education entry. -/
def detailsBlock (d : List (Str × PyVal)) : Str :=
  if dictHasKey d "details".toList then
    match dictLookupD d "details".toList .vNone with
    | .vList ds =>
      if ds.isEmpty then []
      else
        "\\resumeItemListStart\n".toList ++ concatAll (ds.map resumeItem) ++
          "\\resumeItemListEnd\n".toList
    | _ => []
  else []

/-- One structured education entry of `main.py` (lines 207-230): the
    suffix-duplication check calls `endswith` on the raw institution and
    location values with no null guard, raising on a `None` (or non-string)
    institution or location exactly as Python does. -/
def eduEntryBody (entry : PyVal) : Except PyErr Str :=
  match entry with
  | .vDict d => do
    let inst0 := dictLookupD d "institution".toList (.vStr [])
    let loc0 := dictLookupD d "location".toList (.vStr [])
    let b ← pyEndswith inst0 loc0
    let inst1 : PyVal :=
      if b then
        match inst0, loc0 with
        | .vStr i, .vStr l => .vStr (pyStrip (replaceAll l [] i))
        | _, _ => inst0
      else inst0
    let institution := escape_latex_special_chars inst1
    let location := escape_latex_special_chars loc0
    let degree := escape_latex_special_chars (dictLookupD d "degree".toList (.vStr []))
    let dates := escape_latex_special_chars (dictLookupD d "dates".toList (.vStr []))
    .ok ("\\resumeSubheading\n\x7b".toList ++ pyStr institution ++ "\x7d\x7b".toList ++
      pyStr location ++ "\x7d\n\x7b".toList ++ pyStr degree ++ "\x7d\x7b".toList ++
      pyStr dates ++ "\x7d\n".toList ++ detailsBlock d)
  | _ => .ok []

/-- The accumulated body of `format_education` in `main.py`, branch by branch;
    the legacy string branch is verbatim the shared extraction logic. -/
def format_education_body : PyVal → Except PyErr Str
  | .vList entries =>
    if entries.isEmpty then .ok []
    else (entries.mapM eduEntryBody).map concatAll
  | .vStr s => if (pyStrip s).isEmpty then .ok [] else .ok (eduLegacyBody s)
  | _ => .ok []

/-- `format_education` of the root `main.py`. -/
def format_education (education : PyVal) : Except PyErr Str :=
  (format_education_body education).map (fun body => eduHeader ++ body ++ subHeadingFooter)

end MainPy

/-! General lemmas about the string machinery. -/

theorem dropLit_append (l r : Str) : dropLit l (l ++ r) = some r := by
  induction l with
  | nil => rfl
  | cons a as ih => simp [dropLit, ih]

theorem startsWithLit_append (p r : Str) : startsWithLit p (p ++ r) = true := by
  simp [startsWithLit, dropLit_append]

theorem strEndsWith_append (a suf : Str) : strEndsWith (a ++ suf) suf = true := by
  rw [strEndsWith, List.reverse_append]
  exact startsWithLit_append _ _

namespace JsonToPdf

theorem scanToLit_of_dropLit (close s r : Str) (h : dropLit close s = some r) :
    scanToLit close s = some r := by
  cases s with
  | nil => simpa [scanToLit] using h
  | cons c t => simp [scanToLit, h]

theorem scanToLit_append (pre close suf : Str) :
    (scanToLit close (pre ++ (close ++ suf))).isSome = true := by
  induction pre with
  | nil =>
    rw [List.nil_append, scanToLit_of_dropLit close _ suf (dropLit_append close suf)]
    rfl
  | cons c t ih =>
    rw [List.cons_append]
    cases h : dropLit close (c :: (t ++ (close ++ suf))) with
    | some r => simp [scanToLit, h]
    | none => simpa [scanToLit, h] using ih

theorem findFromG_isSome (m : Str → Option Str) (s : Str) (h : (m s).isSome = true) :
    (findFromG m s).isSome = true := by
  cases s with
  | nil => simpa [findFromG] using h
  | cons c t =>
    cases hm : m (c :: t) with
    | some r => simp [findFromG, hm]
    | none => rw [hm] at h; cases h

theorem reSubAll_of_none (m : Str → Option Str) (repl s : Str)
    (h : findFromG m s = none) : reSubAll m repl s = s := by
  simp [reSubAll, reSubAllF, h]

theorem dictLookupD_of_not_hasKey (d : List (Str × PyVal)) (k : Str) (dv : PyVal)
    (h : dictHasKey d k = false) : dictLookupD d k dv = dv := by
  induction d with
  | nil => rfl
  | cons kv t ih =>
    simp only [dictHasKey, List.any_cons, Bool.or_eq_false_iff] at h
    have hk : ¬(kv.1 = k) := by simpa using h.1
    simp only [dictLookupD, if_neg hk]
    exact ih h.2

theorem dropWsL_cons_ws (c : Char) (t : Str) (h : isPyWs c = true) :
    dropWsL (c :: t) = dropWsL t := by
  simp [dropWsL, h]

theorem dropWsL_cons_not_ws (c : Char) (t : Str) (h : isPyWs c = false) :
    dropWsL (c :: t) = c :: t := by
  simp [dropWsL, h]

theorem sectionMatchAt_isSome (oL cL : Str) (m0 : Char) (mrest a b : Str)
    (hm : isPyWs m0 = false) :
    (sectionMatchAt oL (m0 :: mrest) cL
      (oL ++ '\n' :: m0 :: (mrest ++ (a ++ (cL ++ b))))).isSome = true := by
  have h2 : dropLit (m0 :: mrest) (m0 :: (mrest ++ (a ++ (cL ++ b)))) =
      some (a ++ (cL ++ b)) := by
    have := dropLit_append (m0 :: mrest) (a ++ (cL ++ b))
    simpa using this
  rw [sectionMatchAt, dropLit_append, Option.some_bind,
    dropWsL_cons_ws '\n' _ (by decide), dropWsL_cons_not_ws m0 _ hm, h2,
    Option.some_bind]
  exact scanToLit_append a cL b

/-! Shape lemmas: every formatter output is again matched by its pattern. -/

theorem matchSubHeading_isSome (oL b : Str) :
    (sectionMatchAt oL subHeadingListStart subHeadingListEnd
      ((oL ++ '\n' :: (subHeadingListStart ++ ['\n'])) ++ (b ++ subHeadingFooter))).isSome
      = true := by
  have hS : subHeadingListStart = '\\' :: "resumeSubHeadingListStart".toList := rfl
  have hshape : (oL ++ '\n' :: (subHeadingListStart ++ ['\n'])) ++ (b ++ subHeadingFooter) =
      oL ++ '\n' :: '\\' :: ("resumeSubHeadingListStart".toList ++
        (('\n' :: b) ++ (subHeadingListEnd ++ ['\n']))) := by
    simp [hS, subHeadingFooter, List.append_assoc]
  rw [hshape, hS]
  exact sectionMatchAt_isSome _ _ '\\' _ _ _ (by decide)

theorem regionOkEducation_shape (b : Str) :
    regionOkEducation (eduHeader ++ b ++ subHeadingFooter) = true := by
  have h1 : startsWithLit eduHeader ((eduHeader ++ b) ++ subHeadingFooter) = true := by
    rw [List.append_assoc]; exact startsWithLit_append _ _
  have h2 : strEndsWith ((eduHeader ++ b) ++ subHeadingFooter) subHeadingFooter = true :=
    strEndsWith_append _ _
  have h3 : (findFromG matchEducationAt ((eduHeader ++ b) ++ subHeadingFooter)).isSome
      = true := by
    rw [List.append_assoc]
    refine findFromG_isSome _ _ ?_
    rw [matchEducationAt, eduHeader]
    exact matchSubHeading_isSome eduHeaderOpen b
  rw [regionOkEducation, h1, h2, h3]
  rfl

theorem regionOkExperience_shape (b : Str) :
    regionOkExperience (expHeader ++ b ++ subHeadingFooter) = true := by
  have h1 : startsWithLit expHeader ((expHeader ++ b) ++ subHeadingFooter) = true := by
    rw [List.append_assoc]; exact startsWithLit_append _ _
  have h2 : strEndsWith ((expHeader ++ b) ++ subHeadingFooter) subHeadingFooter = true :=
    strEndsWith_append _ _
  have h3 : (findFromG matchExperienceAt ((expHeader ++ b) ++ subHeadingFooter)).isSome
      = true := by
    rw [List.append_assoc]
    refine findFromG_isSome _ _ ?_
    rw [matchExperienceAt, expHeader]
    exact matchSubHeading_isSome expHeaderOpen b
  rw [regionOkExperience, h1, h2, h3]
  rfl

theorem regionOkProjects_shape (b : Str) :
    regionOkProjects (projHeader ++ b ++ subHeadingFooter) = true := by
  have h1 : startsWithLit projHeader ((projHeader ++ b) ++ subHeadingFooter) = true := by
    rw [List.append_assoc]; exact startsWithLit_append _ _
  have h2 : strEndsWith ((projHeader ++ b) ++ subHeadingFooter) subHeadingFooter = true :=
    strEndsWith_append _ _
  have h3 : (findFromG matchProjectsAt ((projHeader ++ b) ++ subHeadingFooter)).isSome
      = true := by
    rw [List.append_assoc]
    refine findFromG_isSome _ _ ?_
    rw [matchProjectsAt, projHeader]
    exact matchSubHeading_isSome projHeaderOpen b
  rw [regionOkProjects, h1, h2, h3]
  rfl

theorem matchSkillsAt_isSome (b : Str) :
    (matchSkillsAt (skillsHeader ++ (b ++ skillsFooter))).isSome = true := by
  have hM : skillsHeaderMid = '\\' :: "begin\x7bitemize\x7d".toList := rfl
  have hshape : skillsHeader ++ (b ++ skillsFooter) =
      skillsHeaderOpen ++ '\n' :: '\\' :: ("begin\x7bitemize\x7d".toList ++
        (("[leftmargin=0pt, itemindent=0pt, labelwidth=0pt, labelsep=0pt, align=left, label=\x7b\x7d]%\n\\small\x7b\\item\x7b\n".toList ++
          (b ++ "\n\x7d\x7d\n".toList)) ++ (endItemizeLit ++ ['\n']))) := by
    simp [skillsHeader, skillsFooter, hM, List.append_assoc]
  rw [matchSkillsAt, hshape, hM]
  exact sectionMatchAt_isSome _ _ '\\' _ _ _ (by decide)

theorem regionOkSkills_shape (b : Str) :
    regionOkSkills (skillsHeader ++ b ++ skillsFooter) = true := by
  have h1 : startsWithLit skillsHeader ((skillsHeader ++ b) ++ skillsFooter) = true := by
    rw [List.append_assoc]; exact startsWithLit_append _ _
  have h2 : strEndsWith ((skillsHeader ++ b) ++ skillsFooter) skillsFooter = true :=
    strEndsWith_append _ _
  have h3 : (findFromG matchSkillsAt ((skillsHeader ++ b) ++ skillsFooter)).isSome
      = true := by
    rw [List.append_assoc]
    exact findFromG_isSome _ _ (matchSkillsAt_isSome b)
  rw [regionOkSkills, h1, h2, h3]
  rfl

theorem matchPersonalAt_isSome (n c : Str) :
    (matchPersonalAt (personalBlock n c)).isSome = true := by
  have hT : textbfHugeLit = '\\' :: "textbf\x7b\\Huge \\scshape".toList := rfl
  have hshape : personalBlock n c =
      beginCenterLit ++ '\n' :: '\\' :: ("textbf\x7b\\Huge \\scshape".toList ++
        ' ' :: ((n ++ (personalMid ++ (c ++ ['\n']))) ++ (endCenterLit ++ []))) := by
    simp [personalBlock, personalPfx, hT, List.append_assoc]
  rw [hshape, matchPersonalAt, dropLit_append, Option.some_bind,
    dropWsL_cons_ws '\n' _ (by decide), dropWsL_cons_not_ws '\\' _ (by decide), hT]
  have h2 : dropLit ('\\' :: "textbf\x7b\\Huge \\scshape".toList)
      ('\\' :: ("textbf\x7b\\Huge \\scshape".toList ++
        ' ' :: ((n ++ (personalMid ++ (c ++ ['\n']))) ++ (endCenterLit ++ [])))) =
      some (' ' :: ((n ++ (personalMid ++ (c ++ ['\n']))) ++ (endCenterLit ++ []))) := by
    have := dropLit_append ('\\' :: "textbf\x7b\\Huge \\scshape".toList)
      (' ' :: ((n ++ (personalMid ++ (c ++ ['\n']))) ++ (endCenterLit ++ [])))
    simpa using this
  rw [h2, Option.some_bind, scanToLit1]
  exact scanToLit_append _ _ _

theorem regionOkPersonal_block (n c : Str) :
    regionOkPersonal (personalBlock n c) = true := by
  have h1 : startsWithLit personalPfx (personalBlock n c) = true := by
    rw [show personalBlock n c =
        personalPfx ++ (n ++ (personalMid ++ (c ++ '\n' :: endCenterLit))) from by
      simp [personalBlock, List.append_assoc]]
    exact startsWithLit_append _ _
  have h2 : strEndsWith (personalBlock n c) endCenterLit = true := by
    rw [show personalBlock n c =
        (personalPfx ++ n ++ personalMid ++ c ++ ['\n']) ++ endCenterLit from by
      simp [personalBlock, List.append_assoc]]
    exact strEndsWith_append _ _
  have h3 : (findFromG matchPersonalAt (personalBlock n c)).isSome = true :=
    findFromG_isSome _ _ (matchPersonalAt_isSome n c)
  rw [regionOkPersonal, h1, h2, h3]
  rfl

theorem okSatisfies_map {α : Type} (e : Except PyErr α) (f : α → Str) (p : Str → Bool)
    (h : ∀ b, p (f b) = true) : okSatisfies (e.map f) p = true := by
  cases e with
  | error _ => rfl
  | ok b => simpa [okSatisfies, Except.map] using h b

theorem fpi_regionOk (v : PyVal) : regionOkPersonal (format_personal_info v) = true := by
  cases v with
  | vDict d => exact regionOkPersonal_block _ _
  | vStr s =>
    simp only [format_personal_info]
    split
    · exact regionOkPersonal_block _ _
    · exact regionOkPersonal_block _ _
  | vNone => exact regionOkPersonal_block _ _
  | vBool b => exact regionOkPersonal_block _ _
  | vInt n => exact regionOkPersonal_block _ _
  | vList l => exact regionOkPersonal_block _ _

theorem fed_regionOk (v : PyVal) :
    okSatisfies (format_education v) regionOkEducation = true := by
  rw [format_education]
  exact okSatisfies_map _ _ _ regionOkEducation_shape

theorem fex_regionOk (v : PyVal) :
    okSatisfies (format_experience v) regionOkExperience = true := by
  cases v with
  | vList jobs =>
    simp only [format_experience]
    split
    · simpa [okSatisfies] using regionOkExperience_shape []
    · exact okSatisfies_map _ _ _ (fun bs => regionOkExperience_shape (concatAll bs))
  | vNone => simpa [okSatisfies] using regionOkExperience_shape []
  | vBool b => simpa [okSatisfies] using regionOkExperience_shape []
  | vInt n => simpa [okSatisfies] using regionOkExperience_shape []
  | vStr s => simpa [okSatisfies] using regionOkExperience_shape []
  | vDict d => simpa [okSatisfies] using regionOkExperience_shape []

theorem fpr_regionOk (v : PyVal) :
    okSatisfies (format_projects v) regionOkProjects = true := by
  cases v with
  | vList ps =>
    simp only [format_projects]
    split
    · simpa [okSatisfies] using regionOkProjects_shape []
    · exact okSatisfies_map _ _ _ (fun bs => regionOkProjects_shape (concatAll bs))
  | vNone => simpa [okSatisfies] using regionOkProjects_shape []
  | vBool b => simpa [okSatisfies] using regionOkProjects_shape []
  | vInt n => simpa [okSatisfies] using regionOkProjects_shape []
  | vStr s => simpa [okSatisfies] using regionOkProjects_shape []
  | vDict d => simpa [okSatisfies] using regionOkProjects_shape []

theorem fsk_regionOk (v : PyVal) :
    okSatisfies (format_skills v) regionOkSkills = true := by
  cases v with
  | vDict d => simpa [okSatisfies] using regionOkSkills_shape (skillsDictBody d)
  | vList ss =>
    simp only [format_skills]
    split
    · simpa [okSatisfies] using regionOkSkills_shape []
    · exact okSatisfies_map _ _ _ (fun b => regionOkSkills_shape _)
  | vNone => simpa [okSatisfies] using regionOkSkills_shape []
  | vBool b => simpa [okSatisfies] using regionOkSkills_shape []
  | vInt n => simpa [okSatisfies] using regionOkSkills_shape []
  | vStr s => simpa [okSatisfies] using regionOkSkills_shape []

end JsonToPdf

/-! Lemmas for the escaping layer. -/

theorem replaceAllF_head_notMem (p0 : Char) (pr r : Str) :
    ∀ (s : Str) (f : Nat), p0 ∉ s → replaceAllF f (p0 :: pr) r s = s := by
  intro s
  induction s with
  | nil =>
    intro f _
    cases f with
    | zero => rfl
    | succ f => rfl
  | cons c t ih =>
    intro f hmem
    cases f with
    | zero => rfl
    | succ f =>
      have hc : ¬(p0 = c) := fun h => hmem (h ▸ List.mem_cons_self c t)
      have hd : dropLit (p0 :: pr) (c :: t) = none := by simp [dropLit, hc]
      simp only [replaceAllF, hd]
      rw [ih f (fun h => hmem (List.mem_cons_of_mem c h))]

theorem replaceAll_head_notMem (p0 : Char) (pr r s : Str) (h : p0 ∉ s) :
    replaceAll (p0 :: pr) r s = s := by
  rw [replaceAll, if_neg (by simp)]
  exact replaceAllF_head_notMem p0 pr r s _ h

theorem escString_eq_self (s : Str) (h : noSpecialChars s = true) : escString s = s := by
  have hni : ∀ c : Char, specialCharsList.contains c = true → c ∉ s := by
    intro c hc hmem
    have hx := List.all_eq_true.mp h _ hmem
    rw [hc] at hx
    cases hx
  have h0 : replaceAll "\\".toList "\\textbackslash\x7b\x7d".toList s = s :=
    replaceAll_head_notMem '\\' _ _ s (hni '\\' (by decide))
  have h1 : replaceAll "&".toList "\\&".toList s = s :=
    replaceAll_head_notMem '&' _ _ s (hni '&' (by decide))
  have h2 : replaceAll "%".toList "\\%".toList s = s :=
    replaceAll_head_notMem '%' _ _ s (hni '%' (by decide))
  have h3 : replaceAll "$".toList "\\$".toList s = s :=
    replaceAll_head_notMem '$' _ _ s (hni '$' (by decide))
  have h4 : replaceAll "#".toList "\\#".toList s = s :=
    replaceAll_head_notMem '#' _ _ s (hni '#' (by decide))
  have h5 : replaceAll "_".toList "\\_".toList s = s :=
    replaceAll_head_notMem '_' _ _ s (hni '_' (by decide))
  have h6 : replaceAll "\x7b".toList "\\\x7b".toList s = s :=
    replaceAll_head_notMem (Char.ofNat 123) _ _ s (hni (Char.ofNat 123) (by decide))
  have h7 : replaceAll "\x7d".toList "\\\x7d".toList s = s :=
    replaceAll_head_notMem (Char.ofNat 125) _ _ s (hni (Char.ofNat 125) (by decide))
  have h8 : replaceAll "~".toList "\\textasciitilde\x7b\x7d".toList s = s :=
    replaceAll_head_notMem '~' _ _ s (hni '~' (by decide))
  have h9 : replaceAll "^".toList "\\textasciicircum\x7b\x7d".toList s = s :=
    replaceAll_head_notMem '^' _ _ s (hni '^' (by decide))
  simp only [escString, LATEX_SPECIAL_CHARS, List.foldl]
  rw [h0, h1, h2, h3, h4, h5, h6, h7, h8, h9]

/-! The claims. -/

/-- C1 (corrected).  Amended claim: on inputs containing no backslash and none
    of the reserved characters, `escape` returns its input unchanged, so a
    second application changes nothing and the occurrence count of the
    `\textbackslash` marker is the same in `escape(escape(s))` and in
    `escape(s)`.  The original universally quantified claim is refuted by
    `c1_counterexample`. -/
theorem c1_escape_idempotent_on_plain (s : Str) (h : noSpecialChars s = true) :
    escString s = s ∧
    countOcc textbackslashLit (escString (escString s)) =
      countOcc textbackslashLit (escString s) := by
  refine ⟨escString_eq_self s h, ?_⟩
  rw [escString_eq_self s h, escString_eq_self s h]

/-- Witness for C1 at the plain string "hello". -/
theorem c1_witness :
    noSpecialChars "hello".toList = true ∧
    escString "hello".toList = "hello".toList ∧
    countOcc textbackslashLit (escString (escString "hello".toList)) =
      countOcc textbackslashLit (escString "hello".toList) :=
  ⟨by decide, (c1_escape_idempotent_on_plain "hello".toList (by decide)).1,
    (c1_escape_idempotent_on_plain "hello".toList (by decide)).2⟩

/-- C1 counterexample: escaping the already-escaped text `\&` (the escape of
    `&`) re-escapes its backslash, so the `\textbackslash` marker count rises
    from 0 to 1 instead of staying equal. -/
theorem c1_counterexample :
    escString "&".toList = "\\&".toList ∧
    countOcc textbackslashLit (escString (escString "&".toList)) = 1 ∧
    countOcc textbackslashLit (escString "&".toList) = 0 := by
  refine ⟨by decide, by decide, by decide⟩

/-- C3 (confirmed).  When the input file exists and the external compiler runs,
    `compile_latex` returns success exactly when the expected artifact exists
    on disk after the process returns, regardless of the exit code and of
    continue-on-error. -/
theorem c3_compile_success_iff_artifact (env : JsonToPdf.CompileEnv) (c : Bool)
    (h1 : env.input_file_exists = true) (h2 : env.latexmk_found = true) :
    (JsonToPdf.compile_latex env c = true ↔ env.pdf_exists_after = true) := by
  simp only [JsonToPdf.compile_latex, h1, h2]
  cases hp : env.pdf_exists_after <;> simp

/-- Witness for C3: a zero exit code with a missing artifact reports failure,
    and a nonzero exit code under continue-on-error with the artifact present
    reports success. -/
theorem c3_witness :
    (JsonToPdf.compile_latex ⟨true, true, 0, false⟩ true = true ↔ (false = true)) ∧
    (JsonToPdf.compile_latex ⟨true, true, 1, true⟩ true = true ↔ (true = true)) :=
  ⟨c3_compile_success_iff_artifact _ _ rfl rfl,
    c3_compile_success_iff_artifact _ _ rfl rfl⟩

/-- C4 (code bug).  The root `main.py` copy of `format_education` calls
    `endswith` on the unchecked institution and location values, so an
    education entry with a `None` location raises `TypeError` instead of
    rendering, contradicting the never-raise contract (which the backend copy
    satisfies by guarding, see `JsonToPdf.dedup_then_escape`). -/
theorem c4_main_format_education_raises :
    MainPy.format_education (.vList [.vDict
      [("institution".toList, .vStr "X".toList), ("location".toList, .vNone)]]) =
      .error .typeError := rfl

/-- C5 (code bug).  The backend escape maps `None` to the empty string as the
    claim requires, but the root `main.py` escape returns `None` unchanged,
    which is not a string and is later interpolated as the literal text
    `None`. -/
theorem c5_escape_none_divergence :
    MainPy.escape_latex_special_chars .vNone = .vNone ∧
    JsonToPdf.escape_latex_special_chars .vNone = [] :=
  ⟨rfl, rfl⟩

/-- C6 (corrected).  Amended claim: when a non-empty institution string ends
    with a non-empty location string, `format_education` renders the
    institution as the escape of the whitespace-stripped result of deleting
    every non-overlapping occurrence of the location (not only the suffix); in
    the example of the spec the rendered institution "Acme University," contains
    zero occurrences of "Springfield".  The original "never twice" guarantee
    is refuted by `c6_counterexample`. -/
theorem c6_education_dedup :
    (∀ i l : Str, i ≠ [] → l ≠ [] → strEndsWith i l = true →
      JsonToPdf.dedup_then_escape (.vStr i) (.vStr l) =
        .ok (escString (pyStrip (replaceAll l [] i)))) ∧
    JsonToPdf.format_education (.vList [.vDict
      [("institution".toList, .vStr "Acme University, Springfield".toList),
       ("location".toList, .vStr "Springfield".toList)]]) =
      .ok (eduHeader ++
        format_education_entry "Acme University,".toList "Springfield".toList [] [] ++
        subHeadingFooter) ∧
    countOcc "Springfield".toList "Acme University,".toList = 0 := by
  refine ⟨?_, by rfl, by decide⟩
  intro i l hi hl he
  have hti : truthy (.vStr i) = true := by
    cases i with
    | nil => exact absurd rfl hi
    | cons a t => rfl
  have htl : truthy (.vStr l) = true := by
    cases l with
    | nil => exact absurd rfl hl
    | cons a t => rfl
  simp [JsonToPdf.dedup_then_escape, hti, htl, he]

/-- Witness for C6 at the example given by the spec. -/
theorem c6_witness :
    "Acme University, Springfield".toList ≠ ([] : Str) ∧
    strEndsWith "Acme University, Springfield".toList "Springfield".toList = true ∧
    JsonToPdf.dedup_then_escape (.vStr "Acme University, Springfield".toList)
        (.vStr "Springfield".toList) =
      .ok (escString (pyStrip (replaceAll "Springfield".toList []
        "Acme University, Springfield".toList))) :=
  ⟨by decide, by decide,
    c6_education_dedup.1 _ _ (by decide) (by decide) (by decide)⟩

/-- C6 counterexample: for institution "aabb aabb ab" and location "ab" (the
    institution ends with the location), deleting the non-overlapping
    occurrences juxtaposes the remaining pieces into "ab ab", so the rendered
    institution contains the location twice. -/
theorem c6_counterexample :
    strEndsWith "aabb aabb ab".toList "ab".toList = true ∧
    JsonToPdf.format_education (.vList [.vDict
      [("institution".toList, .vStr "aabb aabb ab".toList),
       ("location".toList, .vStr "ab".toList)]]) =
      .ok (eduHeader ++ format_education_entry "ab ab".toList "ab".toList [] [] ++
        subHeadingFooter) ∧
    countOcc "ab".toList "ab ab".toList = 2 :=
  ⟨by decide, by rfl, by decide⟩

/-- C7 (corrected).  Amended claim: `format_personal_info` returns the fixed
    placeholder exactly for inputs that are neither a mapping nor a string
    (for example `None` or a number); the empty-string default that
    `populate_template` supplies for a missing `personal_info` key instead
    takes the legacy-string branch, see `c7_counterexample`. -/
theorem c7_placeholder_for_unrecognized (v : PyVal)
    (hd : ∀ d, v ≠ .vDict d) (hs : ∀ s, v ≠ .vStr s) :
    JsonToPdf.format_personal_info v = JsonToPdf.placeholderPersonal := by
  cases v with
  | vDict d => exact absurd rfl (hd d)
  | vStr s => exact absurd rfl (hs s)
  | vNone => rfl
  | vBool b => rfl
  | vInt n => rfl
  | vList l => rfl

/-- Witness for C7 at `None`. -/
theorem c7_witness :
    (∀ d, PyVal.vNone ≠ PyVal.vDict d) ∧ (∀ s, PyVal.vNone ≠ PyVal.vStr s) ∧
    JsonToPdf.format_personal_info .vNone = JsonToPdf.placeholderPersonal :=
  ⟨fun _ h => PyVal.noConfusion h, fun _ h => PyVal.noConfusion h,
    c7_placeholder_for_unrecognized .vNone (fun _ h => PyVal.noConfusion h)
      (fun _ h => PyVal.noConfusion h)⟩

/-- C7 counterexample: the empty string (the default `populate_template`
    supplies when `personal_info` is missing) is handled by the legacy string
    branch and yields a block with empty name and contact line, not the
    "Your Name" placeholder. -/
theorem c7_counterexample :
    JsonToPdf.format_personal_info (.vStr []) = JsonToPdf.personalBlock [] [] ∧
    JsonToPdf.personalBlock [] [] ≠ JsonToPdf.placeholderPersonal :=
  ⟨rfl, by decide⟩

/-- C8 (confirmed).  In the legacy personal-info branch, each contact segment
    after the name is rendered with the classification precedence
    email > LinkedIn > GitHub > phone > plain text: a segment satisfying
    `is_email` becomes a mailto hyperlink regardless of the other predicates,
    a non-email segment satisfying `is_linkedin` becomes a LinkedIn hyperlink
    regardless of `is_phone`, and so on down the chain. -/
theorem c8_contact_precedence (p : Str) :
    (JsonToPdf.is_email (pyStrip p) = true →
      JsonToPdf.format_contact_part p =
        "\\href\x7bmailto:".toList ++ escString (pyStrip p) ++
          "\x7d\x7b\\underline\x7b".toList ++ escString (pyStrip p) ++ "\x7d\x7d".toList) ∧
    (JsonToPdf.is_email (pyStrip p) = false →
      JsonToPdf.is_linkedin (pyStrip p) = true →
      JsonToPdf.format_contact_part p =
        "\\href\x7b".toList ++ JsonToPdf.ensure_url_protocol (pyStrip p) ++
          "\x7d\x7b\\underline\x7b".toList ++ escString (pyStrip p) ++ "\x7d\x7d".toList) ∧
    (JsonToPdf.is_email (pyStrip p) = false →
      JsonToPdf.is_linkedin (pyStrip p) = false →
      JsonToPdf.is_github (pyStrip p) = true →
      JsonToPdf.format_contact_part p =
        "\\href\x7b".toList ++ JsonToPdf.ensure_url_protocol (pyStrip p) ++
          "\x7d\x7b\\underline\x7b".toList ++ escString (pyStrip p) ++ "\x7d\x7d".toList) ∧
    (JsonToPdf.is_email (pyStrip p) = false →
      JsonToPdf.is_linkedin (pyStrip p) = false →
      JsonToPdf.is_github (pyStrip p) = false →
      JsonToPdf.is_phone (pyStrip p) = true →
      JsonToPdf.format_contact_part p =
        "\\href\x7btel:".toList ++ (pyStrip p).filter Char.isDigit ++
          "\x7d\x7b".toList ++ escString (pyStrip p) ++ "\x7d".toList) ∧
    (JsonToPdf.is_email (pyStrip p) = false →
      JsonToPdf.is_linkedin (pyStrip p) = false →
      JsonToPdf.is_github (pyStrip p) = false →
      JsonToPdf.is_phone (pyStrip p) = false →
      JsonToPdf.format_contact_part p = escString (pyStrip p)) := by
  refine ⟨fun h1 => ?_, fun h1 h2 => ?_, fun h1 h2 h3 => ?_,
    fun h1 h2 h3 h4 => ?_, fun h1 h2 h3 h4 => ?_⟩ <;>
    simp [JsonToPdf.format_contact_part, *]

/-- Witness for C8: one segment per precedence class, including the
    examples "a@b.com" and "linkedin.com/in/x" (the latter also satisfies no
    email test yet is rendered as LinkedIn ahead of the phone classifier). -/
theorem c8_witness :
    JsonToPdf.format_contact_part "a@b.com".toList =
      "\\href\x7bmailto:a@b.com\x7d\x7b\\underline\x7ba@b.com\x7d\x7d".toList ∧
    JsonToPdf.format_contact_part "linkedin.com/in/x".toList =
      "\\href\x7bhttps://linkedin.com/in/x\x7d\x7b\\underline\x7blinkedin.com/in/x\x7d\x7d".toList ∧
    JsonToPdf.format_contact_part "github.com/x".toList =
      "\\href\x7bhttps://github.com/x\x7d\x7b\\underline\x7bgithub.com/x\x7d\x7d".toList ∧
    JsonToPdf.format_contact_part "123-456-7890".toList =
      "\\href\x7btel:1234567890\x7d\x7b123-456-7890\x7d".toList ∧
    JsonToPdf.format_contact_part "Plain".toList = "Plain".toList := by
  refine ⟨?_, ?_, ?_, ?_, ?_⟩
  · have h := (c8_contact_precedence "a@b.com".toList).1 (by decide)
    rw [h]; decide
  · have h := (c8_contact_precedence "linkedin.com/in/x".toList).2.1 (by decide) (by decide)
    rw [h]; decide
  · have h := (c8_contact_precedence "github.com/x".toList).2.2.1 (by decide) (by decide)
      (by decide)
    rw [h]; decide
  · have h := (c8_contact_precedence "123-456-7890".toList).2.2.2.1 (by decide) (by decide)
      (by decide) (by decide)
    rw [h]; decide
  · have h := (c8_contact_precedence "Plain".toList).2.2.2.2 (by decide) (by decide)
      (by decide) (by decide)
    rw [h]; decide

/-- C9 (confirmed).  For a non-empty formatted technology list, the project
    heading chooser used by `format_projects` inlines the list next to the
    heading when its length is at most the 40-character threshold, and emits
    it as a separate first `Technologies:` bullet below the heading when it is
    longer. -/
theorem c9_technologies_threshold (nm tf : Str) (h : tf ≠ []) :
    (tf.length ≤ 40 →
      JsonToPdf.project_heading_part nm tf =
        "\\resumeProjectHeading\n\x7b\\textbf\x7b".toList ++ nm ++
          "\x7d $|$ \\emph\x7b".toList ++ tf ++
          "\x7d\x7d\x7b\x7d\n\\resumeItemListStart\n".toList) ∧
    (40 < tf.length →
      JsonToPdf.project_heading_part nm tf =
        "\\resumeProjectHeading\n\x7b\\textbf\x7b".toList ++ nm ++
          "\x7d\x7d\x7b\x7d\n\\resumeItemListStart\n\\resumeItem\x7b\\emph\x7bTechnologies:\x7d ".toList ++
          tf ++ "\x7d\n".toList) := by
  have hne : tf.isEmpty = false := by
    cases tf with
    | nil => exact absurd rfl h
    | cons a t => rfl
  constructor
  · intro hle
    simp [JsonToPdf.project_heading_part, hne, Nat.not_lt.mpr hle]
  · intro hgt
    simp [JsonToPdf.project_heading_part, hne, hgt]

/-- Witness for C9 with a short and a long technology list. -/
theorem c9_witness :
    JsonToPdf.project_heading_part "P".toList "Python".toList =
      "\\resumeProjectHeading\n\x7b\\textbf\x7bP\x7d $|$ \\emph\x7bPython\x7d\x7d\x7b\x7d\n\\resumeItemListStart\n".toList ∧
    JsonToPdf.project_heading_part "P".toList
        "01234567890123456789012345678901234567890".toList =
      "\\resumeProjectHeading\n\x7b\\textbf\x7bP\x7d\x7d\x7b\x7d\n\\resumeItemListStart\n\\resumeItem\x7b\\emph\x7bTechnologies:\x7d 01234567890123456789012345678901234567890\x7d\n".toList := by
  constructor
  · have h := (c9_technologies_threshold "P".toList "Python".toList (by decide)).1
      (by decide)
    rw [h]
    decide
  · have h := (c9_technologies_threshold "P".toList
      "01234567890123456789012345678901234567890".toList (by decide)).2 (by decide)
    rw [h]
    decide

/-- C2 (corrected).  Amended claim: for a resume record with none of the five
    recognized section keys, `populate_template` returns the template string
    unchanged exactly when no section pattern and no cleanup pattern matches
    anywhere in the template; when a region does match, it is replaced by the
    default-formatted empty section, see `c2_counterexample`. -/
theorem c2_populate_identity_no_regions (template : Str) (d : List (Str × PyVal))
    (h1 : dictHasKey d "personal_info".toList = false)
    (h2 : dictHasKey d "education".toList = false)
    (h3 : dictHasKey d "experience".toList = false)
    (h4 : dictHasKey d "projects".toList = false)
    (h5 : dictHasKey d "skills".toList = false)
    (n1 : JsonToPdf.findFromG JsonToPdf.matchPersonalAt template = none)
    (n2 : JsonToPdf.findFromG JsonToPdf.matchEducationAt template = none)
    (n3 : JsonToPdf.findFromG JsonToPdf.matchExperienceAt template = none)
    (n4 : JsonToPdf.findFromG JsonToPdf.matchProjectsAt template = none)
    (n5 : JsonToPdf.findFromG JsonToPdf.matchSkillsAt template = none)
    (n6 : JsonToPdf.findFromG JsonToPdf.matchCleanupAt template = none) :
    JsonToPdf.populate_template template (.vDict d) = .ok template := by
  have g1 : pyDictGet (.vDict d) "personal_info".toList (.vStr []) = .ok (.vStr []) := by
    show Except.ok (dictLookupD d "personal_info".toList (.vStr [])) = .ok (.vStr [])
    rw [JsonToPdf.dictLookupD_of_not_hasKey _ _ _ h1]
  have g2 : pyDictGet (.vDict d) "education".toList (.vStr []) = .ok (.vStr []) := by
    show Except.ok (dictLookupD d "education".toList (.vStr [])) = .ok (.vStr [])
    rw [JsonToPdf.dictLookupD_of_not_hasKey _ _ _ h2]
  have g3 : pyDictGet (.vDict d) "experience".toList (.vList []) = .ok (.vList []) := by
    show Except.ok (dictLookupD d "experience".toList (.vList [])) = .ok (.vList [])
    rw [JsonToPdf.dictLookupD_of_not_hasKey _ _ _ h3]
  have g4 : pyDictGet (.vDict d) "projects".toList (.vList []) = .ok (.vList []) := by
    show Except.ok (dictLookupD d "projects".toList (.vList [])) = .ok (.vList [])
    rw [JsonToPdf.dictLookupD_of_not_hasKey _ _ _ h4]
  have g5 : pyDictGet (.vDict d) "skills".toList (.vList []) = .ok (.vList []) := by
    show Except.ok (dictLookupD d "skills".toList (.vList [])) = .ok (.vList [])
    rw [JsonToPdf.dictLookupD_of_not_hasKey _ _ _ h5]
  have f2 : JsonToPdf.format_education (.vStr []) =
      .ok (eduHeader ++ subHeadingFooter) := rfl
  have f3 : JsonToPdf.format_experience (.vList []) =
      .ok (JsonToPdf.expHeader ++ subHeadingFooter) := rfl
  have f4 : JsonToPdf.format_projects (.vList []) =
      .ok (JsonToPdf.projHeader ++ subHeadingFooter) := rfl
  have f5 : JsonToPdf.format_skills (.vList []) =
      .ok (JsonToPdf.skillsHeader ++ JsonToPdf.skillsFooter) := rfl
  simp only [JsonToPdf.populate_template, g1, g2, g3, g4, g5, f2, f3, f4, f5,
    Bind.bind, Except.bind]
  rw [JsonToPdf.reSubAll_of_none _ _ _ n1, JsonToPdf.reSubAll_of_none _ _ _ n2,
    JsonToPdf.reSubAll_of_none _ _ _ n3, JsonToPdf.reSubAll_of_none _ _ _ n4,
    JsonToPdf.reSubAll_of_none _ _ _ n5, JsonToPdf.reSubAll_of_none _ _ _ n6]

/-- Witness for C2 at a region-free template and the empty record. -/
theorem c2_witness :
    dictHasKey ([] : List (Str × PyVal)) "personal_info".toList = false ∧
    JsonToPdf.findFromG JsonToPdf.matchPersonalAt "Hello world".toList = none ∧
    JsonToPdf.findFromG JsonToPdf.matchCleanupAt "Hello world".toList = none ∧
    JsonToPdf.populate_template "Hello world".toList (.vDict []) =
      .ok "Hello world".toList :=
  ⟨rfl, by decide, by decide,
    c2_populate_identity_no_regions "Hello world".toList [] rfl rfl rfl rfl rfl
      (by decide) (by decide) (by decide) (by decide) (by decide) (by decide)⟩

/-- C2 counterexample: a template containing an experience region with sample
    content is modified by `populate_template` even though the record has no
    recognized section keys — the region is replaced by the empty default
    section, so the template is not returned unchanged. -/
theorem c2_counterexample :
    JsonToPdf.populate_template
        "A\n\\section\x7bExperience\x7d\n\\resumeSubHeadingListStart\nSAMPLE\\resumeSubHeadingListEnd\nB".toList
        (.vDict []) =
      .ok ("A\n".toList ++ (JsonToPdf.expHeader ++ subHeadingFooter) ++ "\nB".toList) ∧
    "A\n".toList ++ (JsonToPdf.expHeader ++ subHeadingFooter) ++ "\nB".toList ≠
      "A\n\\section\x7bExperience\x7d\n\\resumeSubHeadingListStart\nSAMPLE\\resumeSubHeadingListEnd\nB".toList :=
  ⟨rfl, by decide⟩

/-- C10 (confirmed).  For every input, successful output of each section formatter
    begins with the fixed opening markup of its region, ends with its fixed
    closing markup, and is matched again by the same `SECTION_PATTERNS`
    pattern that `populate_template` uses for that section, so a populated
    region remains locatable by a second application. -/
theorem c10_formatter_outputs_relocatable (v : PyVal) :
    JsonToPdf.regionOkPersonal (JsonToPdf.format_personal_info v) = true ∧
    JsonToPdf.okSatisfies (JsonToPdf.format_education v)
      JsonToPdf.regionOkEducation = true ∧
    JsonToPdf.okSatisfies (JsonToPdf.format_experience v)
      JsonToPdf.regionOkExperience = true ∧
    JsonToPdf.okSatisfies (JsonToPdf.format_projects v)
      JsonToPdf.regionOkProjects = true ∧
    JsonToPdf.okSatisfies (JsonToPdf.format_skills v)
      JsonToPdf.regionOkSkills = true :=
  ⟨JsonToPdf.fpi_regionOk v, JsonToPdf.fed_regionOk v, JsonToPdf.fex_regionOk v,
    JsonToPdf.fpr_regionOk v, JsonToPdf.fsk_regionOk v⟩

end ResumePdf
